import Mathlib

/-!
Verification development for the x64-masm-trainer submission judge.

The subject code is TypeScript: `src/assembler/assemblerService.ts`
(AssemblerService: validateCode, compileAssembly, linkObject,
executeProgram, compileAndRun) and the testing/grading services
(TestRunner.runQuickValidation, TestingService.validateOutput /
validateTestResult / calculateSentiment, GradingService.gradeSubmission
and its sub-graders).

Modelling conventions, fixed throughout this file:
* JS numbers are modelled as `ℚ` (exact rational arithmetic); `Math.round`
  is `jsRound` (round half toward positive infinity, JS semantics).
  Floating-point rounding error is not modelled; every constant appearing
  in the source (0.001, band thresholds, weights) is exactly representable.
* JS strings are Lean `String`s.  `String.prototype.trim`,
  `String.prototype.toLowerCase` (ASCII range), `String.prototype.includes`
  and the global `parseFloat` / `parseInt` are modelled below.  `parseFloat`
  follows the ECMAScript grammar (optional sign, digits, optional fraction,
  optional exponent, longest prefix, NaN as `none`); the `Infinity` literal
  and non-ASCII case mapping are not modelled — no claim depends on them.
* External effects (filesystem, child processes, wall clock) are supplied
  by explicit environment records; each field corresponds to one awaited
  call in the source.  A promise that never resolves is modelled by an
  `Option` result of `none`.
-/

/-- JS character class `\s` restricted to the ASCII whitespace characters
(space, tab, line feed, vertical tab, form feed, carriage return). -/
def isWsChar (c : Char) : Bool :=
  c == ' ' || c == '\t' || c == '\n' || c == '\r' || c == '\x0b' || c == '\x0c'

/-- Word characters of the JS regex class `\w` (for `\b` boundaries). -/
def isWordChar (c : Char) : Bool :=
  c.isAlphanum || c == '_'

/-- ASCII lower-casing of one character, as `String.prototype.toLowerCase`
acts on the ASCII range. -/
def lowerChar (c : Char) : Char :=
  if 'A' ≤ c ∧ c ≤ 'Z' then Char.ofNat (c.toNat + 32) else c

/-- `String.prototype.toLowerCase` (ASCII range). -/
def lowerStr (s : String) : String :=
  ⟨s.data.map lowerChar⟩

/-- Both-ends whitespace trimming on character lists. -/
def trimList (l : List Char) : List Char :=
  ((l.dropWhile isWsChar).reverse.dropWhile isWsChar).reverse

/-- `String.prototype.trim`. -/
def jsTrim (s : String) : String :=
  ⟨trimList s.data⟩

/-- Does `l` start with `p`? -/
def startsWithL : List Char → List Char → Bool
  | [], _ => true
  | _ :: _, [] => false
  | a :: p, b :: l => a == b && startsWithL p l

/-- Does `l` contain `sub` as a contiguous run?  (`String.prototype.includes`.) -/
def hasSubL (sub : List Char) : List Char → Bool
  | [] => startsWithL sub []
  | l@(_ :: t) => startsWithL sub l || hasSubL sub t

/-- `String.prototype.includes`. -/
def jsIncludes (s sub : String) : Bool :=
  hasSubL sub.data s.data

/-- `Math.round`: round half toward positive infinity. -/
def jsRound (q : ℚ) : ℤ :=
  ⌊q + 1/2⌋

/-- JS `x || d` for an optional string `x` (empty string is falsy). -/
def jsStrOr (o : Option String) (d : String) : String :=
  match o with
  | none => d
  | some s => if s = "" then d else s

/-- JS truthiness of an optional string (`undefined` and `""` are falsy). -/
def jsStrTruthy (o : Option String) : Bool :=
  match o with
  | none => false
  | some s => s ≠ ""

/-! ## parseFloat -/

/-- Decimal value of a digit run. -/
def digitsVal (l : List Char) : ℕ :=
  l.foldl (fun a c => 10 * a + (c.toNat - '0'.toNat)) 0

/-- Optional leading sign (`parseFloat` / `parseInt` grammar). -/
def parseSign (l : List Char) : ℤ × List Char :=
  match l with
  | c :: t => if c = '+' then (1, t) else if c = '-' then (-1, t) else (1, l)
  | [] => (1, [])

/-- Exponent part of the `parseFloat` grammar: `e`/`E`, optional sign, digits.
A bare `e` with no digits contributes exponent 0 (the exponent is simply not
consumed, as in `parseFloat("1e+")`). -/
def parseExpPart (l : List Char) : ℤ :=
  match l with
  | c :: t =>
    if c = 'e' ∨ c = 'E' then
      let (es, t2) := parseSign t
      let ed := t2.takeWhile Char.isDigit
      if ed.isEmpty then 0 else es * (digitsVal ed : ℤ)
    else 0
  | [] => 0

/-- Mantissa of the `parseFloat` grammar: digits, optional `.` plus digits;
fails (NaN) when no digit is found.  Returns the value and the unconsumed
remainder. -/
def mantAndRest (l : List Char) : Option (ℚ × List Char) :=
  let d1 := l.takeWhile Char.isDigit
  let l1 := l.dropWhile Char.isDigit
  match l1 with
  | c :: l2 =>
    if c = '.' then
      let d2 := l2.takeWhile Char.isDigit
      let l3 := l2.dropWhile Char.isDigit
      if d1.isEmpty && d2.isEmpty then none
      else some ((digitsVal d1 : ℚ) + (digitsVal d2 : ℚ) / (10 : ℚ) ^ d2.length, l3)
    else if d1.isEmpty then none else some ((digitsVal d1 : ℚ), l1)
  | [] => if d1.isEmpty then none else some ((digitsVal d1 : ℚ), l1)

/-- Numeric literal after leading whitespace has been skipped. -/
def parseNum (l : List Char) : Option ℚ :=
  let (sgn, l1) := parseSign l
  match mantAndRest l1 with
  | none => none
  | some (m, rest) => some ((sgn : ℚ) * m * (10 : ℚ) ^ parseExpPart rest)

/-- The JS global `parseFloat` (`none` = NaN). -/
def jsParseFloat (s : String) : Option ℚ :=
  parseNum (s.data.dropWhile isWsChar)

/-- Hexadecimal digit value. -/
def hexDigitVal (c : Char) : Option ℕ :=
  if c.isDigit then some (c.toNat - '0'.toNat)
  else if 'a' ≤ c ∧ c ≤ 'f' then some (c.toNat - 'a'.toNat + 10)
  else if 'A' ≤ c ∧ c ≤ 'F' then some (c.toNat - 'A'.toNat + 10)
  else none

/-- Value of a hex digit run. -/
def hexVal (l : List Char) : ℕ :=
  l.foldl (fun a c => 16 * a + (hexDigitVal c).getD 0) 0

/-- The JS global `parseInt` with no radix argument: skips whitespace, takes an
optional sign, then either a `0x`/`0X` hexadecimal literal or decimal digits;
`none` = NaN. -/
def jsParseInt (s : String) : Option ℤ :=
  let l := s.data.dropWhile isWsChar
  let (sgn, l1) := parseSign l
  match l1 with
  | '0' :: x :: t =>
    if x = 'x' ∨ x = 'X' then
      let hd := t.takeWhile (fun c => (hexDigitVal c).isSome)
      if hd.isEmpty then none else some (sgn * (hexVal hd : ℤ))
    else
      let dd := ('0' :: x :: t).takeWhile Char.isDigit
      some (sgn * (digitsVal dd : ℤ))
  | _ =>
    let dd := l1.takeWhile Char.isDigit
    if dd.isEmpty then none else some (sgn * (digitsVal dd : ℤ))

/-! ## TestingService.validateOutput

Embedding of `TestingService.validateOutput` (part_011 lines 724-742):
exact equality, else case-insensitive equality, else — when both sides
`parseFloat` to numbers — numeric closeness within 0.001 (returned directly,
whether it holds or not), else trimmed equality. -/

def validateOutput (actual expected : String) : Bool :=
  if actual = expected then true
  else if lowerStr actual = lowerStr expected then true
  else
    match jsParseFloat actual, jsParseFloat expected with
    | some x, some y => decide (|x - y| < 1/1000)
    | _, _ => if jsTrim actual = jsTrim expected then true else false

example : validateOutput "42" "42.0" = true := by
  simp +decide [validateOutput, jsParseFloat, parseNum, mantAndRest, parseSign, parseExpPart,
    digitsVal, isWsChar, lowerStr, lowerChar, jsTrim, trimList]
example : validateOutput "42" "43" = false := by
  simp +decide [validateOutput, jsParseFloat, parseNum, mantAndRest, parseSign, parseExpPart,
    digitsVal, isWsChar, lowerStr, lowerChar, jsTrim, trimList]
  norm_num
example : validateOutput "HELLO" "hello" = true := by decide
example : validateOutput " 7 " "7" = true := by
  simp +decide [validateOutput, jsParseFloat, parseNum, mantAndRest, parseSign, parseExpPart,
    digitsVal, isWsChar, lowerStr, lowerChar, jsTrim, trimList]

/-! ## AssemblerService.validateCode (the Security Screener)

The source checks the submission against six case-insensitive denylist
regexes of the shape `\b(alt₁|alt₂|…)\b`, where every alternative is a
sequence of literal words separated by `\s+`.  The matcher below implements
exactly that fragment: an alternative matches at a position when the words
occur in sequence separated by one-or-more whitespace characters, preceded
and followed by a word boundary. -/

/-- Try to match one literal word at the head of the input. -/
def matchWord : List Char → List Char → Option (List Char)
  | [], l => some l
  | _ :: _, [] => none
  | c :: w, x :: l => if x == c then matchWord w l else none

/-- Match a sequence of words separated by `\s+` at the head of the input,
returning the remainder on success. -/
def matchSeq : List (List Char) → List Char → Option (List Char)
  | [], l => some l
  | [w], l => matchWord w l
  | w :: ws, l =>
    match matchWord w l with
    | none => none
    | some l1 =>
      match l1 with
      | [] => none
      | c :: t => if isWsChar c then matchSeq ws (t.dropWhile isWsChar) else none

/-- `\b` after the match: end of input or a non-word character. -/
def boundaryAfter (l : List Char) : Bool :=
  match l with
  | [] => true
  | c :: _ => !isWordChar c

/-- Does some alternative of the pattern match at this position? -/
def matchAltsAt (alts : List (List (List Char))) (l : List Char) : Bool :=
  alts.any fun alt =>
    match matchSeq alt l with
    | some rest => boundaryAfter rest
    | none => false

/-- Scan all positions with a preceding word boundary; `prev` is the
character before the current position, if any. -/
def scanPattern (alts : List (List (List Char))) : Option Char → List Char → Bool
  | _, [] => false
  | prev, c :: t =>
    ((match prev with
      | none => true
      | some p => !isWordChar p) && matchAltsAt alts (c :: t))
    || scanPattern alts (some c) t

/-- `RegExp.prototype.test` for a `\b(w₁\s+w₂…|…)\b` pattern with the `i`
flag: the subject is lower-cased, the pattern words are given lower-case. -/
def testPattern (alts : List (List String)) (s : String) : Bool :=
  scanPattern (alts.map fun alt => alt.map String.data) none (lowerStr s).data

/-- The six denylist patterns of `AssemblerService.validateCode`
(assemblerService.ts lines 218-225), each as its list of alternatives. -/
def dangerousPatterns : List (List (List String)) :=
  [ [["int", "0x80"], ["int", "0x2e"]],
    [["syscall"], ["sysenter"]],
    [["hlt"], ["cli"], ["sti"], ["in", "eax"], ["out", "eax"]],
    [["mov", "cr0"], ["mov", "cr3"], ["mov", "cr4"]],
    [["rdmsr"], ["wrmsr"]],
    [["lgdt"], ["lidt"], ["sgdt"], ["sidt"]] ]

def dangerousMsg : String :=
  "Code contains potentially dangerous instructions that are not allowed in the learning environment."

def tooLargeMsg : String :=
  "Code is too large. Please keep your program under 50KB."

/-- `AssemblerService.validateCode` (lines 216-239): unless
`allowSystemCalls`, reject code matching any denylist pattern; then reject
code longer than 50 KiB.  A thrown `Error` is modelled as `Except.error`
carrying its message. -/
def validateCode (code : String) (allowSystemCalls : Bool) : Except String Unit :=
  if !allowSystemCalls && (dangerousPatterns.any fun p => testPattern p code) then
    .error dangerousMsg
  else if code.length > 50 * 1024 then
    .error tooLargeMsg
  else
    .ok ()

example : validateCode "hlt" false = .error dangerousMsg := rfl
example : validateCode "mov eax, 1" false = .ok () := rfl
example : validateCode "hlt" true = .ok () := rfl
example : validateCode "  int  0x80 " false = .error dangerousMsg := rfl
example : validateCode "printf" false = .ok () := rfl
example : validateCode "shlt" false = .ok () := rfl

/-! ## AssemblerService: compileAssembly, linkObject, executeProgram, compileAndRun

The external world (filesystem, toolchain binaries, child process) is
supplied as explicit environment records; each field stands for the outcome
of one awaited call in the source.  Wall-clock time is abstracted:
`elapsedMs` is the value of `Date.now() - startTime` at whichever return
point is reached (the claims under study do not constrain its value). -/

/-- A JS exit-code value: `error.code || 1` can be a string code such as
`"EACCES"`, while normal paths carry integers. -/
inductive JsExit where
  | int (z : ℤ)
  | str (s : String)
deriving DecidableEq, Repr

/-- JS `x || 0` on an exit-code value (0 and `""` are falsy). -/
def jsExitOrZero (e : JsExit) : JsExit :=
  match e with
  | .int z => if z = 0 then .int 0 else .int z
  | .str s => if s = "" then .int 0 else .str s

/-- The `AssemblyResult` shape returned by `compileAndRun`. -/
structure AssemblyResult where
  success : Bool
  output : String
  error : Option String
  executionTime : ℤ
  exitCode : JsExit
deriving DecidableEq, Repr

/-- `AssemblerOptions` with its three optional fields (`workingDirectory`
is never read by `compileAndRun` and is omitted). -/
structure AssemblerOptions where
  timeout : Option ℕ := none
  memoryLimit : Option ℕ := none
  allowSystemCalls : Option Bool := none
deriving Repr

/-- Environment of one toolchain invocation (`compileAssembly` or
`linkObject`): whether the binary path resolves (`getML64Path` /
`getLinkPath` throw when not found), whether `execAsync` throws, and the
captured streams on success. -/
structure ToolProcEnv where
  toolFound : Bool
  execThrowMsg : Option String := none
  stdout : String := ""
  stderr : String := ""
deriving Repr

def ml64NotFoundMsg : String :=
  "ML64.exe not found. Please install Visual Studio with C++ build tools."

def linkNotFoundMsg : String :=
  "LINK.exe not found. Please install Visual Studio with C++ build tools."

/-- `AssemblerService.compileAssembly` (lines 241-261).  Everything in its
body — including the toolchain path resolution, which throws a
configuration error when no binary is found — sits inside its own
`try`/`catch`, so a throw is converted to `{success:false, error:message}`.
On a clean run, a nonempty stderr fails the compile unless stdout contains
"assembling". -/
def compileAssembly (env : ToolProcEnv) : Bool × Option String :=
  if !env.toolFound then (false, some ml64NotFoundMsg)
  else
    match env.execThrowMsg with
    | some m => (false, some m)
    | none =>
      if env.stderr ≠ "" && !jsIncludes env.stdout "assembling" then (false, some env.stderr)
      else (true, none)

/-- `AssemblerService.linkObject` (lines 263-283): same shape, but any
nonempty stderr fails the link. -/
def linkObject (env : ToolProcEnv) : Bool × Option String :=
  if !env.toolFound then (false, some linkNotFoundMsg)
  else
    match env.execThrowMsg with
    | some m => (false, some m)
    | none =>
      if env.stderr ≠ "" then (false, some env.stderr)
      else (true, none)

/-- A synchronous throw from `spawn` (caught by `executeProgram`). -/
structure SpawnErr where
  message : String
  code : Option String := none
deriving Repr

/-- What the child process does when the spawn call itself succeeds:
`none` models a child that never emits `close` (the program never exits),
otherwise the accumulated streams and the `close` code. -/
structure ChildObs where
  stdout : String := ""
  stderr : String := ""
  closeCode : Option ℤ := none
deriving Repr

/-- Environment of one `executeProgram` call. -/
structure RunEnv where
  spawnThrow : Option SpawnErr := none
  childObs : Option ChildObs := none
deriving Repr

/-- The record resolved by `executeProgram`. -/
structure ExecPRes where
  success : Bool
  output : Option String
  error : Option String
  exitCode : JsExit
deriving DecidableEq, Repr

def timedOutMsg : String :=
  "Program execution timed out. Check for infinite loops."

def tooMuchMemoryMsg : String :=
  "Program used too much memory or produced too much output."

/-- `AssemblerService.executeProgram` (lines 285-345).  The source spawns
the executable, accumulates stdout/stderr, and awaits the `close` event in
a promise with no deadline: neither `timeout` nor `memoryLimit` is used
anywhere in the body, no kill is ever issued, and a child that never closes
leaves the promise pending forever (`none`).  When the child closes, the
result is hard-coded `success:true`, `exitCode:0`, with the accumulated
stderr in `error` — the awaited close code is discarded.  The `catch`
branch only fires for a synchronous `spawn` throw; it rewrites the message
for the `ETIMEDOUT`/`ENOBUFS` codes (unreachable for `spawn`) and returns
`exitCode: error.code || 1`. -/
def executeProgram (env : RunEnv) (timeout memoryLimit : ℕ) : Option ExecPRes :=
  match env.spawnThrow with
  | some e =>
    let msg :=
      if e.code = some "ETIMEDOUT" then timedOutMsg
      else if e.code = some "ENOBUFS" then tooMuchMemoryMsg
      else e.message
    some { success := false, output := none, error := some msg,
           exitCode := (match e.code with
                        | some s => if s = "" then JsExit.int 1 else JsExit.str s
                        | none => JsExit.int 1) }
  | none =>
    match env.childObs with
    | none => none
    | some obs =>
      let _closeCode := obs.closeCode.getD 0
      some { success := true, output := some obs.stdout, error := some obs.stderr,
             exitCode := .int 0 }

/-- Environment of one `compileAndRun` call. -/
structure JudgeEnv where
  ensureDirThrow : Option String := none
  writeFileThrow : Option String := none
  compileEnv : ToolProcEnv
  linkEnv : ToolProcEnv
  runEnv : RunEnv
  elapsedMs : ℤ := 0
  cleanupThrow : Option String := none
deriving Repr

/-- Observable steps of one `compileAndRun` invocation, in order.
`ensureDir` is recorded when the build directory has been created,
`validate` when the security screen is invoked, `removeDir` when the
`finally` block attempts cleanup. -/
inductive JudgeEv where
  | ensureDir
  | validate
  | writeFile
  | compile
  | link
  | run
  | removeDir
deriving DecidableEq, Repr

/-- The `finally` block: cleanup is attempted unconditionally; a cleanup
throw is caught and logged, so it alters neither result nor control flow. -/
def judgeFinish (r : Option AssemblyResult) (tr : List JudgeEv) :
    Option AssemblyResult × List JudgeEv :=
  (r, tr ++ [JudgeEv.removeDir])

/-- The `catch (error)` branch of `compileAndRun`: a thrown `Error` is
stringified as `Internal error: Error: <message>`. -/
def internalErrRes (msg : String) : AssemblyResult :=
  { success := false, output := "", error := some ("Internal error: Error: " ++ msg),
    executionTime := 0, exitCode := .int 1 }

/-- The early-return shape used for compile and link failures:
`error: result.error || '<stage> failed'`, `exitCode: 1`. -/
def buildFailRes (err : Option String) (dflt : String) (elapsed : ℤ) : AssemblyResult :=
  { success := false, output := "", error := some (jsStrOr err dflt),
    executionTime := elapsed, exitCode := .int 1 }

/-- The final-return shape mapping an `executeProgram` result:
`output: runResult.output || ''`, `exitCode: runResult.exitCode || 0`. -/
def runMapRes (r : ExecPRes) (elapsed : ℤ) : AssemblyResult :=
  { success := r.success, output := jsStrOr r.output "", error := r.error,
    executionTime := elapsed, exitCode := jsExitOrZero r.exitCode }

/-- `AssemblerService.compileAndRun` (lines 123-214), with its event trace.
The source, in order: destructure options (defaults `timeout=5000`,
`memoryLimit=100MB`, `allowSystemCalls=false`); create the build directory
(`fs.ensureDir`); run the security screen (`validateCode`); write the
source file; compile; link; execute; and in `finally`, remove the build
directory.  Throws from `ensureDir`/`validateCode`/`writeFile` reach the
`catch` branch; compile/link/execute failures are structured returns.  A
child that never closes leaves the whole call pending (`none`) and the
`finally` block never runs. -/
def compileAndRun (code : String) (_input : String) (opts : AssemblerOptions)
    (env : JudgeEnv) : Option AssemblyResult × List JudgeEv :=
  let timeout := opts.timeout.getD 5000
  let memoryLimit := opts.memoryLimit.getD (100 * 1024 * 1024)
  let allowSystemCalls := opts.allowSystemCalls.getD false
  match env.ensureDirThrow with
  | some e => judgeFinish (some (internalErrRes e)) []
  | none =>
    match validateCode code allowSystemCalls with
    | .error msg => judgeFinish (some (internalErrRes msg)) [.ensureDir, .validate]
    | .ok _ =>
      match env.writeFileThrow with
      | some e => judgeFinish (some (internalErrRes e)) [.ensureDir, .validate]
      | none =>
        let (cok, cerr) := compileAssembly env.compileEnv
        if !cok then
          judgeFinish (some (buildFailRes cerr "Compilation failed" env.elapsedMs))
            [.ensureDir, .validate, .writeFile, .compile]
        else
          let (lok, lerr) := linkObject env.linkEnv
          if !lok then
            judgeFinish (some (buildFailRes lerr "Linking failed" env.elapsedMs))
              [.ensureDir, .validate, .writeFile, .compile, .link]
          else
            match executeProgram env.runEnv timeout memoryLimit with
            | none => (none, [.ensureDir, .validate, .writeFile, .compile, .link, .run])
            | some r =>
              judgeFinish (some (runMapRes r env.elapsedMs))
                [.ensureDir, .validate, .writeFile, .compile, .link, .run]

/-! ## TestingService: validateTestResult, calculateSentiment -/

/-- The `TestType` union (part_011 lines 520-526). -/
inductive TestType where
  | output_validation
  | unit_test
  | performance_test
  | memory_test
  | security_test
  | code_quality
deriving DecidableEq, Repr

/-- `TestingService.validatePerformance` (lines 747-750). -/
def validatePerformance (executionTime : ℤ) : Bool :=
  executionTime < 1000

/-- `TestingService.validateSecurity` (lines 755-758): success and a falsy
`error` field. -/
def validateSecurity (r : AssemblyResult) : Bool :=
  r.success && !jsStrTruthy r.error

/-- `TestingService.validateUnitTest` (lines 763-766). -/
def validateUnitTest (actual expected : String) : Bool :=
  validateOutput actual expected

/-- `TestingService.validateCodeQuality` (lines 771-774). -/
def validateCodeQuality (r : AssemblyResult) : Bool :=
  r.success

/-- `TestingService.validateTestResult` (lines 687-719): a failed run never
passes; otherwise both outputs are trimmed and dispatched on the test
type. -/
def validateTestResult (r : AssemblyResult) (expectedOutput : String)
    (testType : TestType) : Bool :=
  if !r.success then false
  else
    let actual := jsTrim (jsStrOr r.output "")
    let expected := jsTrim expectedOutput
    match testType with
    | .output_validation => validateOutput actual expected
    | .performance_test => validatePerformance r.executionTime
    | .memory_test => r.success
    | .security_test => validateSecurity r
    | .unit_test => validateUnitTest actual expected
    | .code_quality => validateCodeQuality r

/-- Feedback sentiment values. -/
inductive Sentiment where
  | excellent
  | good
  | fair
  | needs_work
deriving DecidableEq, Repr

/-- `TestingService.calculateSentiment` (lines 958-963): bands at
90 / 75 / 60. -/
def calculateSentiment (percentage : ℚ) : Sentiment :=
  if 90 ≤ percentage then .excellent
  else if 75 ≤ percentage then .good
  else if 60 ≤ percentage then .fair
  else .needs_work

/-! ## TestRunner.runQuickValidation

`runQuickValidation` (part_011 lines 127-179) loops over at most the first
3 test cases; for each it awaits `assemblerService.compileAndRun(code,
testCase.input, {timeout: 2000})` and marks the case passed exactly when
the result reports success and the trimmed actual output equals the
trimmed expected output.  The judge call is abstracted as an oracle from
the case index to either a thrown message or an `AssemblyResult`; alongside
the result we record each call made as `(input, timeout)`. -/

structure QuickCase where
  input : String
  expectedOutput : String
deriving Repr

structure ValidationTestResult where
  input : String
  expectedOutput : String
  actualOutput : String
  passed : Bool
  error : Option String
deriving Repr

structure QuickSummary where
  totalTests : ℕ
  passedTests : ℕ
  failedTests : ℕ
  successRate : ℚ
deriving Repr

structure QuickValidationResult where
  results : List ValidationTestResult
  summary : QuickSummary
deriving Repr

/-- One iteration of the quick-validation loop body. -/
def quickEntry (tc : QuickCase) (call : Except String AssemblyResult) :
    ValidationTestResult :=
  match call with
  | .ok result =>
    { input := tc.input, expectedOutput := tc.expectedOutput,
      actualOutput := jsStrOr result.output "",
      passed := result.success && (jsTrim (jsStrOr result.output "") == jsTrim tc.expectedOutput),
      error := result.error }
  | .error m =>
    { input := tc.input, expectedOutput := tc.expectedOutput,
      actualOutput := "", passed := false, error := some m }

/-- `TestRunner.runQuickValidation`; also returns the list of
`compileAndRun` calls issued, as `(input, timeout)` pairs. -/
def runQuickValidation (testCases : List QuickCase)
    (oracle : ℕ → Except String AssemblyResult) :
    QuickValidationResult × List (String × ℕ) :=
  let taken := (testCases.take 3).enum
  let results := taken.map fun p => quickEntry p.2 (oracle p.1)
  let calls := taken.map fun p => (p.2.input, 2000)
  let passedCount := (results.filter fun r => r.passed).length
  ({ results := results,
     summary := { totalTests := results.length, passedTests := passedCount,
                  failedTests := results.length - passedCount,
                  successRate := (passedCount : ℚ) / (results.length : ℚ) * 100 } },
   calls)

/-! ## GradingService

`gradeSubmission` (part_011 lines 1205-1252) consumes the submission text
only through a fixed set of pure text scans (non-blank line count, regex
token counts, `includes` checks, the indentation check).  Those scan
results are gathered into `CodeFacts`, one field per source expression;
the grading arithmetic itself is embedded exactly.  The claims under study
quantify over a fixed submission, so the scan layer can be held abstract
without loss. -/

/-- Pure text measurements of the submitted code, one field per expression
in the source: `lines` = non-blank line count, `instructions` = instruction
regex match count, `semiLines` = non-blank lines containing a `;`,
`registerKinds` = number of distinct register tokens
(`Object.keys(registerUsage).length`), `hasCmp`/`hasJe`/… =
`code.includes('cmp')` etc., `consistentFormatting` = `checkFormatting`. -/
structure CodeFacts where
  lines : ℕ
  instructions : ℕ
  semiLines : ℕ
  registerKinds : ℕ
  hasCmp : Bool
  hasJe : Bool
  hasJne : Bool
  hasJg : Bool
  hasJl : Bool
  consistentFormatting : Bool
deriving Repr

/-- The `TestResult` shape (shared/types) as consumed by the grading code. -/
structure TestResult where
  testCaseId : Option String
  passed : Bool
  actualOutput : String
  expectedOutput : String
  executionTime : ℚ
  error : Option String
deriving Repr

/-- `CodeQualityAnalysis` with the rounded metric fields; `registerUsage`
is represented by its key count, the only thing the graders read from it. -/
structure CodeQualityAnalysis where
  linesOfCode : ℕ
  instructionCount : ℕ
  registerKinds : ℕ
  efficiency : ℤ
  readability : ℤ
  maintainability : ℤ
deriving Repr

/-- `GradingService.analyzeCodeQuality` (lines 1417-1442):
`efficiency = max(0, 100 - (lines - instructions) * 2)`,
`readability = min(100, (commentLines / lines) * 100)`,
`maintainability = (efficiency + readability) / 2`, each `Math.round`ed.
(For an all-blank submission, `lines = 0` makes the JS quotient NaN; the
model takes division by zero to be 0, and the claims are stated for
non-blank submissions.) -/
def analyzeCodeQuality (facts : CodeFacts) : CodeQualityAnalysis :=
  let efficiencyQ : ℚ := max 0 (100 - ((facts.lines : ℚ) - (facts.instructions : ℚ)) * 2)
  let readabilityQ : ℚ := min 100 ((facts.semiLines : ℚ) / (facts.lines : ℚ) * 100)
  let maintainabilityQ : ℚ := (efficiencyQ + readabilityQ) / 2
  { linesOfCode := facts.lines, instructionCount := facts.instructions,
    registerKinds := facts.registerKinds,
    efficiency := jsRound efficiencyQ,
    readability := jsRound readabilityQ,
    maintainability := jsRound maintainabilityQ }

/-- `PerformanceMetrics` (lines 1169-1175). -/
structure PerformanceMetrics where
  executionTime : ℚ
  instructionsExecuted : ℕ
  memoryUsage : ℚ
  codeSize : ℕ
  efficiency : ℚ
deriving Repr

/-- `GradingService.calculatePerformanceMetrics` (lines 1447-1459). -/
def calculatePerformanceMetrics (results : List TestResult) (facts : CodeFacts) :
    PerformanceMetrics :=
  let avg : ℚ := (results.map (fun r => r.executionTime)).sum / (results.length : ℚ)
  { executionTime := avg,
    instructionsExecuted := facts.instructions,
    memoryUsage := 0,
    codeSize := facts.lines,
    efficiency := max 0 (100 - ((facts.lines : ℚ) - (facts.instructions : ℚ)) * 2) }

/-- One component of the grade breakdown. -/
structure SubGrade where
  score : ℤ
  maxScore : ℤ
  percentage : ℤ
  description : String
deriving Repr

/-- `GradingService.getFunctionalityDescription` (lines 1586-1591). -/
def getFunctionalityDescription (percentage : ℚ) : String :=
  if 90 ≤ percentage then "Excellent functionality - all requirements met"
  else if 80 ≤ percentage then "Good functionality with minor issues"
  else if 70 ≤ percentage then "Basic functionality working"
  else "Functionality needs improvement"

/-- `GradingService.getEfficiencyDescription` (lines 1593-1598). -/
def getEfficiencyDescription (percentage : ℚ) : String :=
  if 90 ≤ percentage then "Highly efficient implementation"
  else if 70 ≤ percentage then "Reasonably efficient"
  else if 50 ≤ percentage then "Moderate efficiency"
  else "Efficiency improvements needed"

/-- `GradingService.getStyleDescription` (lines 1600-1605). -/
def getStyleDescription (percentage : ℚ) : String :=
  if 80 ≤ percentage then "Excellent code style and readability"
  else if 60 ≤ percentage then "Good code style"
  else if 40 ≤ percentage then "Adequate code style"
  else "Code style needs improvement"

/-- `GradingService.getRobustnessDescription` (lines 1607-1612). -/
def getRobustnessDescription (percentage : ℚ) : String :=
  if 80 ≤ percentage then "Very robust solution"
  else if 60 ≤ percentage then "Moderately robust"
  else if 40 ≤ percentage then "Basic robustness"
  else "Needs more robust error handling"

/-- Is this result on a hidden test case?  (`r.testCaseId?.includes('hidden')`,
with a missing id being falsy.) -/
def isHiddenResult (r : TestResult) : Bool :=
  match r.testCaseId with
  | none => false
  | some id => jsIncludes id "hidden"

/-- Did this case "at least compile"?
(`!r.error || r.error.includes('Wrong Answer')`.) -/
def compiledResult (r : TestResult) : Bool :=
  !jsStrTruthy r.error ||
    (match r.error with
     | none => false
     | some e => jsIncludes e "Wrong Answer")

/-- `GradingService.gradeFunctionality` (lines 1257-1293): up to 50 points
from the public-case pass fraction, up to 20 from the hidden-case pass
fraction (computed as `passedTests - passedPublicTests` over
`totalTests - publicTests`), plus 10 when every case at least compiled;
`maxScore` is 70. -/
def gradeFunctionality (results : List TestResult) : SubGrade :=
  let passedTests := (results.filter fun r => r.passed).length
  let totalTests := results.length
  let publicTests := (results.filter fun r => !isHiddenResult r).length
  let passedPublicTests := (results.filter fun r => r.passed && !isHiddenResult r).length
  let maxScore : ℤ := 70
  let publicPart : ℚ := if 0 < publicTests then
    ((passedPublicTests : ℚ) / (publicTests : ℚ)) * 50 else 0
  let hiddenTests := totalTests - publicTests
  let passedHiddenTests : ℤ := (passedTests : ℤ) - (passedPublicTests : ℤ)
  let hiddenPart : ℚ := if 0 < hiddenTests then
    ((passedHiddenTests : ℚ) / (hiddenTests : ℚ)) * 20 else 0
  let compileBonus : ℚ := if results.all compiledResult then 10 else 0
  let score : ℚ := publicPart + hiddenPart + compileBonus
  let percentage : ℚ := score / (maxScore : ℚ) * 100
  { score := jsRound score, maxScore := maxScore,
    percentage := jsRound percentage,
    description := getFunctionalityDescription percentage }

/-- `GradingService.gradeEfficiency` (lines 1298-1341): banded points for
mean execution time, non-blank line count, and static instruction count;
`maxScore` is 20. -/
def gradeEfficiency (metrics : PerformanceMetrics) (facts : CodeFacts) : SubGrade :=
  let timePart : ℚ :=
    if metrics.executionTime < 100 then 8
    else if metrics.executionTime < 500 then 6
    else if metrics.executionTime < 1000 then 4
    else 2
  let sizePart : ℚ :=
    if facts.lines < 10 then 6
    else if facts.lines < 20 then 4
    else if facts.lines < 30 then 2
    else 0
  let instrPart : ℚ :=
    if metrics.instructionsExecuted < 50 then 6
    else if metrics.instructionsExecuted < 100 then 4
    else if metrics.instructionsExecuted < 200 then 2
    else 0
  let score : ℚ := timePart + sizePart + instrPart
  let maxScore : ℤ := 20
  let percentage : ℚ := score / (maxScore : ℚ) * 100
  { score := jsRound score, maxScore := maxScore,
    percentage := jsRound percentage,
    description := getEfficiencyDescription percentage }

/-- `GradingService.gradeStyle` (lines 1346-1375): `readability / 100 * 4`
points for comments, 3 for consistent formatting, 3 for using more than 3
distinct registers; `maxScore` is 10. -/
def gradeStyle (facts : CodeFacts) (quality : CodeQualityAnalysis) : SubGrade :=
  let commentRatio : ℚ := (quality.readability : ℚ) / 100
  let formatPart : ℚ := if facts.consistentFormatting then 3 else 0
  let registerPart : ℚ := if 3 < quality.registerKinds then 3 else 0
  let score : ℚ := commentRatio * 4 + formatPart + registerPart
  let maxScore : ℤ := 10
  let percentage : ℚ := score / (maxScore : ℚ) * 100
  { score := jsRound score, maxScore := maxScore,
    percentage := jsRound percentage,
    description := getStyleDescription percentage }

/-- `GradingService.isEdgeCase` (lines 1640-1647): the test id or expected
output is "0"/"1"/"0", or parses (via `parseInt`) to a value above 1000;
a NaN comparison is false. -/
def isEdgeCase (r : TestResult) : Bool :=
  let input := (r.testCaseId).getD ""
  let output := r.expectedOutput
  input == "0" || input == "1" || output == "0" ||
    (match jsParseInt input with
     | some v => decide (1000 < v)
     | none => false) ||
    (match jsParseInt output with
     | some v => decide (1000 < v)
     | none => false)

/-- `GradingService.gradeRobustness` (lines 1380-1412): 3 points for a
compare-plus-conditional-branch pattern, up to 4 for the edge-case pass
fraction, 3 for `cmp` plus `jl`; `maxScore` is 10. -/
def gradeRobustness (results : List TestResult) (facts : CodeFacts) : SubGrade :=
  let hasErrorHandling := facts.hasCmp && (facts.hasJe || facts.hasJne || facts.hasJg || facts.hasJl)
  let errorPart : ℚ := if hasErrorHandling then 3 else 0
  let passedEdgeCases := ((results.filter fun r => isEdgeCase r).filter fun r => r.passed).length
  let totalEdgeCases := (results.filter fun r => isEdgeCase r).length
  let edgePart : ℚ := if 0 < totalEdgeCases then
    ((passedEdgeCases : ℚ) / (totalEdgeCases : ℚ)) * 4 else 0
  let hasInputValidation := facts.hasCmp && facts.hasJl
  let validationPart : ℚ := if hasInputValidation then 3 else 0
  let score : ℚ := errorPart + edgePart + validationPart
  let maxScore : ℤ := 10
  let percentage : ℚ := score / (maxScore : ℚ) * 100
  { score := jsRound score, maxScore := maxScore,
    percentage := jsRound percentage,
    description := getRobustnessDescription percentage }

/-- `GradingService.calculateLetterGrade` (lines 1614-1620). -/
def calculateLetterGrade (percentage : ℚ) : String :=
  if 90 ≤ percentage then "A"
  else if 80 ≤ percentage then "B"
  else if 70 ≤ percentage then "C"
  else if 60 ≤ percentage then "D"
  else "F"

/-- The sentiment branch of `GradingService.generateFeedback`
(lines 1473-1482): bands at 90 / 80 / 70. -/
def generateFeedbackSentiment (percentage : ℚ) : Sentiment :=
  if 90 ≤ percentage then .excellent
  else if 80 ≤ percentage then .good
  else if 70 ≤ percentage then .fair
  else .needs_work

/-- `DetailedGrade` as returned by `gradeSubmission` (the feedback is
represented by its overall sentiment; the message strings, strengths /
weaknesses lists and recommendations are not referenced by any claim). -/
structure DetailedGrade where
  score : ℤ
  maxScore : ℤ
  percentage : ℤ
  letterGrade : String
  functionality : SubGrade
  efficiency : SubGrade
  style : SubGrade
  robustness : SubGrade
  feedbackSentiment : Sentiment
deriving Repr

/-- `GradingService.gradeSubmission` (lines 1205-1252): grade the four
components, sum their (already rounded) scores, and derive percentage,
letter grade and feedback from the unrounded quotient. -/
def gradeSubmission (facts : CodeFacts) (results : List TestResult) : DetailedGrade :=
  let codeQuality := analyzeCodeQuality facts
  let performanceMetrics := calculatePerformanceMetrics results facts
  let functionalityGrade := gradeFunctionality results
  let efficiencyGrade := gradeEfficiency performanceMetrics facts
  let styleGrade := gradeStyle facts codeQuality
  let robustnessGrade := gradeRobustness results facts
  let totalScore : ℤ := functionalityGrade.score + efficiencyGrade.score +
    styleGrade.score + robustnessGrade.score
  let maxScore : ℤ := functionalityGrade.maxScore + efficiencyGrade.maxScore +
    styleGrade.maxScore + robustnessGrade.maxScore
  let percentage : ℚ := ((totalScore : ℚ) / (maxScore : ℚ)) * 100
  { score := jsRound (totalScore : ℚ),
    maxScore := maxScore,
    percentage := jsRound percentage,
    letterGrade := calculateLetterGrade percentage,
    functionality := functionalityGrade,
    efficiency := efficiencyGrade,
    style := styleGrade,
    robustness := robustnessGrade,
    feedbackSentiment := generateFeedbackSentiment percentage }

/-! ## Concrete environments used by witnesses and counterexamples -/

/-- A toolchain invocation that succeeds cleanly. -/
def toolOkEnv : ToolProcEnv := { toolFound := true }

/-- A child process that runs and closes (exit code 0, stdout "7"). -/
def childOkObs : ChildObs := { stdout := "7", stderr := "", closeCode := some 0 }

/-- A fully healthy judge environment. -/
def envOk : JudgeEnv :=
  { compileEnv := toolOkEnv, linkEnv := toolOkEnv, runEnv := { childObs := some childOkObs } }

/-- A judge environment whose compiler binary cannot be located. -/
def envNoMl64 : JudgeEnv :=
  { compileEnv := { toolFound := false }, linkEnv := toolOkEnv,
    runEnv := { childObs := some childOkObs } }

/-- A spawned child that never emits `close` (e.g. an infinite loop). -/
def loopRunEnv : RunEnv := { spawnThrow := none, childObs := none }

/-- A healthy environment whose program loops forever. -/
def envLoop : JudgeEnv :=
  { compileEnv := toolOkEnv, linkEnv := toolOkEnv, runEnv := loopRunEnv }

/-- A child that closes with the nonzero code 7 and nonempty stderr. -/
def obs7 : ChildObs := { stdout := "out", stderr := "warning: x", closeCode := some 7 }

/-- A healthy environment whose child closes with code 7. -/
def env7 : JudgeEnv :=
  { compileEnv := toolOkEnv, linkEnv := toolOkEnv, runEnv := { childObs := some obs7 } }

/-- Code facts for the C7/C8 counterexample submissions: 5 commented,
consistently indented lines, 5 instruction tokens, 4 registers, `cmp` and
`je` present, `jl` absent. -/
def cexFacts : CodeFacts :=
  { lines := 5, instructions := 5, semiLines := 5, registerKinds := 4,
    hasCmp := true, hasJe := true, hasJne := false, hasJg := false, hasJl := false,
    consistentFormatting := true }

/-- Test results for the C7 counterexample: five public cases, four passed,
two of them edge cases (ids/expected outputs "0") of which one passed; no
errors; 50 ms each. -/
def cexResults : List TestResult :=
  [ { testCaseId := some "0", passed := true, actualOutput := "0", expectedOutput := "0",
      executionTime := 50, error := none },
    { testCaseId := some "t2", passed := true, actualOutput := "7", expectedOutput := "7",
      executionTime := 50, error := none },
    { testCaseId := some "t3", passed := true, actualOutput := "8", expectedOutput := "8",
      executionTime := 50, error := none },
    { testCaseId := some "t4", passed := true, actualOutput := "9", expectedOutput := "9",
      executionTime := 50, error := none },
    { testCaseId := some "t5", passed := false, actualOutput := "1", expectedOutput := "0",
      executionTime := 50, error := none } ]

/-- A successful run whose stdout is exactly "42". -/
def quickRes42 : AssemblyResult :=
  { success := true, output := "42", error := some "", executionTime := 5, exitCode := .int 0 }

/-- Results for the C8 counterexample: one public and one hidden case, both
passed, no errors. -/
def cex8Results : List TestResult :=
  [ { testCaseId := some "case1", passed := true, actualOutput := "1", expectedOutput := "1",
      executionTime := 50, error := none },
    { testCaseId := some "hidden1", passed := true, actualOutput := "2", expectedOutput := "2",
      executionTime := 50, error := none } ]

/-- Two test results that agree on every field, except that the passed
flag may only be flipped from `false` to `true`. -/
def FlagLe (a b : TestResult) : Prop :=
  a.testCaseId = b.testCaseId ∧ a.actualOutput = b.actualOutput ∧
  a.expectedOutput = b.expectedOutput ∧ a.executionTime = b.executionTime ∧
  a.error = b.error ∧ (a.passed = true → b.passed = true)

/-- The exact functionality score as a function of the four counts and the
compile flag, mirroring `gradeFunctionality`. -/
def funScoreQ (passedTests totalTests publicTests passedPublicTests : ℕ)
    (allCompiled : Bool) : ℚ :=
  let publicPart : ℚ := if 0 < publicTests then
    ((passedPublicTests : ℚ) / (publicTests : ℚ)) * 50 else 0
  let hiddenTests := totalTests - publicTests
  let passedHiddenTests : ℤ := (passedTests : ℤ) - (passedPublicTests : ℤ)
  let hiddenPart : ℚ := if 0 < hiddenTests then
    ((passedHiddenTests : ℚ) / (hiddenTests : ℚ)) * 20 else 0
  let compileBonus : ℚ := if allCompiled then 10 else 0
  publicPart + hiddenPart + compileBonus

/-- The exact robustness score as a function of the edge-case counts,
mirroring `gradeRobustness`. -/
def robScoreQ (facts : CodeFacts) (passedEdgeCases totalEdgeCases : ℕ) : ℚ :=
  let hasErrorHandling := facts.hasCmp &&
    (facts.hasJe || facts.hasJne || facts.hasJg || facts.hasJl)
  let errorPart : ℚ := if hasErrorHandling then 3 else 0
  let edgePart : ℚ := if 0 < totalEdgeCases then
    ((passedEdgeCases : ℚ) / (totalEdgeCases : ℚ)) * 4 else 0
  let hasInputValidation := facts.hasCmp && facts.hasJl
  let validationPart : ℚ := if hasInputValidation then 3 else 0
  errorPart + edgePart + validationPart

/-- A single failing test case... -/
def c5Fail : List TestResult :=
  [ { testCaseId := some "t1", passed := false, actualOutput := "0", expectedOutput := "1",
      executionTime := 30, error := none } ]

/-- ...and the same case with only the passed flag flipped to true. -/
def c5Pass : List TestResult :=
  [ { testCaseId := some "t1", passed := true, actualOutput := "0", expectedOutput := "1",
      executionTime := 30, error := none } ]


/-! ## C1 -/

/-- C1, counterexample.  The claim says that for denylisted code the
security screen runs strictly before workspace creation and no workspace is
ever created.  In the source, `fs.ensureDir(buildDir)` (line 140) runs
before `validateCode` (line 143): on the denylisted source `"hlt"` the
trace records workspace creation *before* the security screen, and the
violation surfaces as a `success:false` result rather than a raised
`SecurityViolation`. -/
theorem C1_workspace_created_before_screen_cex :
    validateCode "hlt" false = .error dangerousMsg ∧
    (compileAndRun "hlt" "" {} envOk).2
      = [JudgeEv.ensureDir, JudgeEv.validate, JudgeEv.removeDir] ∧
    JudgeEv.ensureDir ∈ (compileAndRun "hlt" "" {} envOk).2 ∧
    (compileAndRun "hlt" "" {} envOk).1 = some (internalErrRes dangerousMsg) := by
  refine ⟨rfl, rfl, ?_, rfl⟩
  show JudgeEv.ensureDir ∈ [JudgeEv.ensureDir, JudgeEv.validate, JudgeEv.removeDir]
  simp

/-- C1, amended: on denylisted code (with restricted instructions not
allowed) `compileAndRun` first creates the workspace, then runs the
security screen; the screen's throw is caught and returned as a
`success:false` result with an `Internal error:` message, and the workspace
is removed by the cleanup step — the screen does not precede workspace
creation and nothing is raised to the caller. -/
theorem C1_screen_after_workspace (code input : String) (opts : AssemblerOptions)
    (env : JudgeEnv) (msg : String)
    (hdir : env.ensureDirThrow = none)
    (hval : validateCode code (opts.allowSystemCalls.getD false) = .error msg) :
    compileAndRun code input opts env =
      (some (internalErrRes msg), [JudgeEv.ensureDir, JudgeEv.validate, JudgeEv.removeDir]) := by
  simp only [compileAndRun, hdir, hval, judgeFinish]
  rfl

/-- Witness for C1's amended theorem at the concrete denylisted source
`"hlt"` in a healthy environment. -/
theorem C1_screen_after_workspace_witness :
    validateCode "hlt" false = .error dangerousMsg ∧
    compileAndRun "hlt" "" {} envOk =
      (some (internalErrRes dangerousMsg),
       [JudgeEv.ensureDir, JudgeEv.validate, JudgeEv.removeDir]) :=
  ⟨rfl, C1_screen_after_workspace "hlt" "" {} envOk dangerousMsg rfl rfl⟩

/-! ## C2 -/

/-- C2: the claim (and spec §4.4) says `executeProgram` forcibly terminates
the child at the `timeoutMs` deadline and reports a timeout-classified
`success:false` outcome.  In the source the `timeout` parameter is never
used: the promise awaits the `close` event with no deadline, no kill is
issued, and the `ETIMEDOUT` branch is unreachable for `spawn`.  Formally:
the result of `executeProgram` is independent of its `timeout` (and
`memoryLimit`) arguments, a child that never closes yields no outcome at
all, and the enclosing `compileAndRun` then never returns (its cleanup
never runs) for every requested timeout. -/
theorem C2_timeout_never_enforced :
    (∀ (env : RunEnv) (t₁ m₁ t₂ m₂ : ℕ),
      executeProgram env t₁ m₁ = executeProgram env t₂ m₂) ∧
    (∀ t m : ℕ, executeProgram loopRunEnv t m = none) ∧
    (∀ t : ℕ, compileAndRun "mov eax, 1" "" { timeout := some t } envLoop =
      (none, [JudgeEv.ensureDir, JudgeEv.validate, JudgeEv.writeFile,
              JudgeEv.compile, JudgeEv.link, JudgeEv.run])) :=
  ⟨fun _ _ _ _ _ => rfl, fun _ _ => rfl, fun _ => rfl⟩

/-! ## C3 -/

/-- C3, counterexample.  The claim says security violations and toolchain
configuration errors are raised to `compileAndRun`'s caller and not
converted into `success:false` outcomes.  In the source both are converted:
a denylisted pattern is caught by the catch-all and returned as
`success:false` with an `Internal error:` message, and a missing compiler
binary is caught inside `compileAssembly` and returned through the ordinary
compile-failure branch. -/
theorem C3_errors_not_raised_cex :
    (compileAndRun "syscall" "" {} envOk).1 = some (internalErrRes dangerousMsg) ∧
    (internalErrRes dangerousMsg).success = false ∧
    (compileAndRun "mov eax, 1" "" {} envNoMl64).1 =
      some { success := false, output := "", error := some ml64NotFoundMsg,
             executionTime := 0, exitCode := .int 1 } ∧
    (∀ r tr, compileAndRun "syscall" "" {} envOk = (r, tr) → r.isSome) :=
  ⟨rfl, rfl, rfl, fun r _ h => by
    have : r = some (internalErrRes dangerousMsg) := by
      have := congrArg Prod.fst h
      exact this.symm
    simp [this]⟩

/-- C3, amended: security violations and toolchain configuration errors are
*not* raised to the immediate caller of `compileAndRun`; both are converted
into `success:false` results — the security violation through the judge's
catch-all (`Internal error:` prefix, `executionTime` 0), the missing
compiler binary through the compile-failure branch, exactly like any other
build failure. -/
theorem C3_errors_become_outcomes :
    (∀ (code input : String) (opts : AssemblerOptions) (env : JudgeEnv) (msg : String),
      env.ensureDirThrow = none →
      validateCode code (opts.allowSystemCalls.getD false) = .error msg →
      (compileAndRun code input opts env).1 =
        some { success := false, output := "",
               error := some ("Internal error: Error: " ++ msg),
               executionTime := 0, exitCode := .int 1 }) ∧
    (∀ (code input : String) (opts : AssemblerOptions) (env : JudgeEnv),
      env.ensureDirThrow = none →
      env.writeFileThrow = none →
      validateCode code (opts.allowSystemCalls.getD false) = .ok () →
      env.compileEnv.toolFound = false →
      (compileAndRun code input opts env).1 =
        some { success := false, output := "", error := some ml64NotFoundMsg,
               executionTime := env.elapsedMs, exitCode := .int 1 }) := by
  constructor
  · intro code input opts env msg hdir hval
    simp only [compileAndRun, hdir, hval, judgeFinish]
    rfl
  · intro code input opts env hdir hwrite hval htool
    have hc : compileAssembly env.compileEnv = (false, some ml64NotFoundMsg) := by
      simp only [compileAssembly, htool]
      rfl
    simp only [compileAndRun, hdir, hval, hwrite, hc, judgeFinish]
    rfl

/-- Witness for C3's amended theorem: the denylisted source `"sysenter"`
and a missing-compiler environment with the benign source `"mov ebx, 2"`. -/
theorem C3_errors_become_outcomes_witness :
    (compileAndRun "sysenter" "" {} envOk).1 =
      some { success := false, output := "",
             error := some ("Internal error: Error: " ++ dangerousMsg),
             executionTime := 0, exitCode := .int 1 } ∧
    (compileAndRun "mov ebx, 2" "" {} envNoMl64).1 =
      some { success := false, output := "", error := some ml64NotFoundMsg,
             executionTime := 0, exitCode := .int 1 } :=
  ⟨C3_errors_become_outcomes.1 "sysenter" "" {} envOk dangerousMsg rfl rfl,
   C3_errors_become_outcomes.2 "mov ebx, 2" "" {} envNoMl64 rfl rfl rfl rfl⟩

/-! ## C9 -/

/-- C9: whenever the spawn succeeds and the child eventually closes,
`executeProgram` resolves with `success:true` and `exitCode:0` no matter
what the child's close code was, placing the accumulated stderr in the
`error` field; `compileAndRun` forwards exactly that, so the program's real
exit status never reaches the caller. -/
theorem C9_exit_code_discarded (code input : String) (opts : AssemblerOptions)
    (env : JudgeEnv) (obs : ChildObs)
    (hdir : env.ensureDirThrow = none)
    (hval : validateCode code (opts.allowSystemCalls.getD false) = .ok ())
    (hwrite : env.writeFileThrow = none)
    (hcomp : compileAssembly env.compileEnv = (true, none))
    (hlink : linkObject env.linkEnv = (true, none))
    (hspawn : env.runEnv.spawnThrow = none)
    (hclose : env.runEnv.childObs = some obs) :
    (∀ t m : ℕ, executeProgram env.runEnv t m =
      some { success := true, output := some obs.stdout, error := some obs.stderr,
             exitCode := .int 0 }) ∧
    (compileAndRun code input opts env).1 =
      some { success := true, output := obs.stdout, error := some obs.stderr,
             executionTime := env.elapsedMs, exitCode := .int 0 } := by
  have hrun : ∀ t m : ℕ, executeProgram env.runEnv t m =
      some { success := true, output := some obs.stdout, error := some obs.stderr,
             exitCode := .int 0 } := by
    intro t m
    unfold executeProgram
    rw [hspawn, hclose]
  refine ⟨hrun, ?_⟩
  simp only [compileAndRun, hdir, hval, hwrite, hcomp, hlink, hrun, judgeFinish,
    runMapRes, jsStrOr, jsExitOrZero]
  by_cases hs : obs.stdout = "" <;> simp [hs]

/-- Witness for C9 at a child that closes with the nonzero code 7 and
nonempty stderr. -/
theorem C9_exit_code_discarded_witness :
    (∀ t m : ℕ, executeProgram env7.runEnv t m =
      some { success := true, output := some "out", error := some "warning: x",
             exitCode := .int 0 }) ∧
    (compileAndRun "mov edx, 4" "" {} env7).1 =
      some { success := true, output := "out", error := some "warning: x",
             executionTime := 0, exitCode := .int 0 } :=
  C9_exit_code_discarded "mov edx, 4" "" {} env7 obs7 rfl rfl rfl rfl rfl rfl rfl

/-! ## C6 -/

/-- C6: on every path of `compileAndRun` that produces a result — success,
compile failure, link failure, run failure, internal exception — the
cleanup step is attempted exactly once, after the result is determined
(it is the last recorded event); and since the `finally` block catches its
own errors, the returned result and trace are identical for every value of
the cleanup outcome. -/
theorem C6_cleanup_exactly_once (code input : String) (opts : AssemblerOptions)
    (env : JudgeEnv) (r : AssemblyResult) (tr : List JudgeEv)
    (h : compileAndRun code input opts env = (some r, tr)) :
    (tr.count JudgeEv.removeDir = 1 ∧ tr.getLast? = some JudgeEv.removeDir) ∧
    (∀ c, compileAndRun code input opts { env with cleanupThrow := c } = (some r, tr)) := by
  have hirrel : ∀ c, compileAndRun code input opts { env with cleanupThrow := c } =
      compileAndRun code input opts env := fun c => rfl
  refine ⟨?_, fun c => (hirrel c).trans h⟩
  simp only [compileAndRun, judgeFinish] at h
  repeat' split at h
  all_goals
    first
    | (simp only [Prod.mk.injEq] at h
       obtain ⟨h1, h2⟩ := h
       subst h2
       exact ⟨by decide, by decide⟩)
    | simp at h

/-- Witness for C6 on the all-success path in a healthy environment. -/
theorem C6_cleanup_exactly_once_witness :
    (([JudgeEv.ensureDir, JudgeEv.validate, JudgeEv.writeFile, JudgeEv.compile,
       JudgeEv.link, JudgeEv.run, JudgeEv.removeDir].count JudgeEv.removeDir = 1 ∧
      [JudgeEv.ensureDir, JudgeEv.validate, JudgeEv.writeFile, JudgeEv.compile,
       JudgeEv.link, JudgeEv.run, JudgeEv.removeDir].getLast? = some JudgeEv.removeDir) ∧
     (∀ c, compileAndRun "mov ecx, 3" "" {} { envOk with cleanupThrow := c } =
       (some { success := true, output := "7", error := some "", executionTime := 0,
               exitCode := .int 0 },
        [JudgeEv.ensureDir, JudgeEv.validate, JudgeEv.writeFile, JudgeEv.compile,
         JudgeEv.link, JudgeEv.run, JudgeEv.removeDir]))) :=
  C6_cleanup_exactly_once "mov ecx, 3" "" {} envOk
    { success := true, output := "7", error := some "", executionTime := 0, exitCode := .int 0 }
    [JudgeEv.ensureDir, JudgeEv.validate, JudgeEv.writeFile, JudgeEv.compile,
     JudgeEv.link, JudgeEv.run, JudgeEv.removeDir] rfl

/-! ## jsRound computation lemmas -/

/-- `Math.round` of an integer is that integer. -/
theorem jsRound_intCast (n : ℤ) : jsRound (n : ℚ) = n := by
  unfold jsRound
  rw [add_comm, Int.floor_add_int]
  norm_num

/-- `Math.round` of a value shown equal to an integer. -/
theorem jsRound_eq_intCast {q : ℚ} {n : ℤ} (h : q = (n : ℚ)) : jsRound q = n := by
  rw [h]; exact jsRound_intCast n

/-- `Math.round` is monotone. -/
theorem jsRound_mono {p q : ℚ} (h : p ≤ q) : jsRound p ≤ jsRound q := by
  unfold jsRound
  exact Int.floor_le_floor (by linarith)

/-- An upper bound on the argument gives the same bound on `Math.round`. -/
theorem jsRound_le_of_le {q : ℚ} {n : ℤ} (h : q ≤ (n : ℚ)) : jsRound q ≤ n := by
  have := jsRound_mono h
  rwa [jsRound_intCast] at this

/-! ## C7 -/

/-- Functionality sub-score of the C7 counterexample: 4/5 of 50 plus the
compile bonus. -/
theorem cex_functionality_score : (gradeFunctionality cexResults).score = 50 := by
  simp +decide [gradeFunctionality, cexResults, isHiddenResult, jsIncludes, hasSubL,
    startsWithL, compiledResult, jsStrTruthy]
  apply jsRound_eq_intCast
  push_cast
  norm_num

/-- Efficiency sub-score of the C7 counterexample: all three bands maxed. -/
theorem cex_efficiency_score :
    (gradeEfficiency (calculatePerformanceMetrics cexResults cexFacts) cexFacts).score = 20 := by
  simp +decide [gradeEfficiency, calculatePerformanceMetrics, cexResults, cexFacts]
  norm_num
  apply jsRound_eq_intCast
  push_cast
  norm_num

/-- Style sub-score of the C7 counterexample: full marks. -/
theorem cex_style_score :
    (gradeStyle cexFacts (analyzeCodeQuality cexFacts)).score = 10 := by
  simp +decide [gradeStyle, analyzeCodeQuality, cexFacts]
  rw [show jsRound (100 : ℚ) = (100 : ℤ) from jsRound_eq_intCast (by norm_num)]
  apply jsRound_eq_intCast
  push_cast
  norm_num

/-- Robustness sub-score of the C7 counterexample: 3 for cmp+je, 2 for the
1-of-2 edge-case pass fraction. -/
theorem cex_robustness_score : (gradeRobustness cexResults cexFacts).score = 5 := by
  simp +decide [gradeRobustness, cexResults, cexFacts, isEdgeCase, jsParseInt, parseSign,
    digitsVal, hexVal, hexDigitVal, isWsChar]
  apply jsRound_eq_intCast
  push_cast
  norm_num

/-- C7, counterexample.  The claim says the Grading Engine's feedback
sentiment is `good` exactly on percentages in [75, 90).  The submission
below grades to 85/110 ≈ 77.3%, inside that band, yet
`gradeSubmission` reports sentiment `fair`: `GradingService.generateFeedback`
uses bands 90 / 80 / 70, not the claimed 90 / 75 / 60 (those live in
`TestingService.calculateSentiment`). -/
theorem C7_sentiment_band_cex :
    (gradeSubmission cexFacts cexResults).score = 85 ∧
    (gradeSubmission cexFacts cexResults).maxScore = 110 ∧
    (75 : ℚ) ≤ (85 : ℚ) / 110 * 100 ∧ (85 : ℚ) / 110 * 100 < 90 ∧
    (gradeSubmission cexFacts cexResults).feedbackSentiment = Sentiment.fair ∧
    Sentiment.fair ≠ Sentiment.good := by
  have hf := cex_functionality_score
  have he := cex_efficiency_score
  have hs := cex_style_score
  have hr := cex_robustness_score
  refine ⟨?_, ?_, by norm_num, by norm_num, ?_, by decide⟩
  · show jsRound _ = 85
    simp only [gradeSubmission, hf, he, hs, hr]
    apply jsRound_eq_intCast
    push_cast
    norm_num
  · rfl
  · show generateFeedbackSentiment _ = Sentiment.fair
    have hfm : (gradeFunctionality cexResults).maxScore = 70 := rfl
    have hem :
        (gradeEfficiency (calculatePerformanceMetrics cexResults cexFacts) cexFacts).maxScore
          = 20 := rfl
    have hsm : (gradeStyle cexFacts (analyzeCodeQuality cexFacts)).maxScore = 10 := rfl
    have hrm : (gradeRobustness cexResults cexFacts).maxScore = 10 := rfl
    simp only [gradeSubmission, hf, he, hs, hr, hfm, hem, hsm, hrm, generateFeedbackSentiment]
    norm_num

/-- C7, amended.  The Grading Engine's feedback sentiment
(`GradingService.generateFeedback`, used by `gradeSubmission`) is
`excellent` exactly on percentage ≥ 90, `good` exactly on [80, 90), `fair`
exactly on [70, 80), and `needs_work` otherwise; the claimed 90 / 75 / 60
bands are the ones used by `TestingService.calculateSentiment`.  The
percentage fed to the sentiment is the exact (unrounded) score/maxScore
ratio of the graded submission. -/
theorem C7_sentiment_bands :
    (∀ p : ℚ,
      (generateFeedbackSentiment p = Sentiment.excellent ↔ 90 ≤ p) ∧
      (generateFeedbackSentiment p = Sentiment.good ↔ 80 ≤ p ∧ p < 90) ∧
      (generateFeedbackSentiment p = Sentiment.fair ↔ 70 ≤ p ∧ p < 80) ∧
      (generateFeedbackSentiment p = Sentiment.needs_work ↔ p < 70)) ∧
    (∀ p : ℚ,
      (calculateSentiment p = Sentiment.excellent ↔ 90 ≤ p) ∧
      (calculateSentiment p = Sentiment.good ↔ 75 ≤ p ∧ p < 90) ∧
      (calculateSentiment p = Sentiment.fair ↔ 60 ≤ p ∧ p < 75) ∧
      (calculateSentiment p = Sentiment.needs_work ↔ p < 60)) ∧
    (∀ (facts : CodeFacts) (results : List TestResult),
      (gradeSubmission facts results).feedbackSentiment =
        generateFeedbackSentiment
          (((gradeSubmission facts results).score : ℚ) /
            ((gradeSubmission facts results).maxScore : ℚ) * 100)) := by
  refine ⟨?_, ?_, ?_⟩
  · intro p
    unfold generateFeedbackSentiment
    refine ⟨?_, ?_, ?_, ?_⟩ <;> split_ifs <;> simp_all <;>
      first | linarith | (constructor <;> linarith) | (intro h; linarith)
  · intro p
    unfold calculateSentiment
    refine ⟨?_, ?_, ?_, ?_⟩ <;> split_ifs <;> simp_all <;>
      first | linarith | (constructor <;> linarith) | (intro h; linarith)
  · intro facts results
    simp only [gradeSubmission, jsRound_intCast]

/-- Witness for C7's amended band theorem at percentage 77: the Grading
Engine reports `fair` while `TestingService.calculateSentiment` reports
`good`. -/
theorem C7_sentiment_bands_witness :
    generateFeedbackSentiment 77 = Sentiment.fair ∧
    calculateSentiment 77 = Sentiment.good :=
  ⟨((C7_sentiment_bands.1 77).2.2.1).mpr ⟨by norm_num, by norm_num⟩,
   ((C7_sentiment_bands.2.1 77).2.1).mpr ⟨by norm_num, by norm_num⟩⟩

/-! ## C10 -/

/-- C10: `runQuickValidation` judges at most the first 3 cases, each via a
`compileAndRun` call with the fixed 2000 ms timeout; a processed case is
passed exactly when the run succeeded and the trimmed output equals the
trimmed expectation character for character.  The case-insensitive and
numeric-tolerance layers of `validateOutput` are not applied: on actual
"42" versus expected "42.0" the full-suite comparison accepts while quick
validation fails the case. -/
theorem C10_quick_validation :
    (∀ (tcs : List QuickCase) (oracle : ℕ → Except String AssemblyResult),
      (runQuickValidation tcs oracle).1.results.length = min tcs.length 3) ∧
    (∀ (tcs : List QuickCase) (oracle : ℕ → Except String AssemblyResult),
      (runQuickValidation tcs oracle).2 = (tcs.take 3).map fun tc => (tc.input, 2000)) ∧
    (∀ (tcs : List QuickCase) (oracle : ℕ → Except String AssemblyResult)
       (i : ℕ) (tc : QuickCase) (res : AssemblyResult),
      tcs[i]? = some tc → i < 3 → oracle i = .ok res →
      (runQuickValidation tcs oracle).1.results[i]? = some (quickEntry tc (.ok res)) ∧
      (quickEntry tc (.ok res)).passed =
        (res.success && (jsTrim (jsStrOr res.output "") == jsTrim tc.expectedOutput))) ∧
    (validateOutput "42" "42.0" = true ∧
      ((runQuickValidation [{ input := "", expectedOutput := "42.0" }]
          (fun _ => .ok quickRes42)).1.results.map fun r => r.passed) = [false]) := by
  refine ⟨?_, ?_, ?_, ?_, ?_⟩
  · intro tcs oracle
    simp [runQuickValidation, List.enum_length, Nat.min_comm]
  · intro tcs oracle
    show ((tcs.take 3).enum.map fun p => (p.2.input, 2000)) = _
    rw [show (fun p : ℕ × QuickCase => (p.2.input, 2000)) =
          ((fun tc : QuickCase => (tc.input, 2000)) ∘ Prod.snd) from rfl,
        ← List.map_map, List.enum_map_snd]
  · intro tcs oracle i tc res htc hi hor
    refine ⟨?_, rfl⟩
    show ((tcs.take 3).enum.map fun p => quickEntry p.2 (oracle p.1))[i]? = _
    rw [List.getElem?_map, List.getElem?_enum, List.getElem?_take_of_lt hi, htc]
    simp [hor]
  · simp +decide [validateOutput, jsParseFloat, parseNum, mantAndRest, parseSign, parseExpPart,
      digitsVal, isWsChar, lowerStr, lowerChar, jsTrim, trimList]
  · rfl

/-- Witness for C10's pass rule at index 0 of a one-case suite. -/
theorem C10_quick_validation_witness :
    (runQuickValidation [{ input := "5", expectedOutput := "42.0" }]
        (fun _ => .ok quickRes42)).1.results[0]? =
      some (quickEntry { input := "5", expectedOutput := "42.0" } (.ok quickRes42)) :=
  (C10_quick_validation.2.2.1 [{ input := "5", expectedOutput := "42.0" }]
    (fun _ => .ok quickRes42) 0 { input := "5", expectedOutput := "42.0" } quickRes42
    rfl (by decide) rfl).1

/-! ## C4: the layered output comparison

The one non-trivial step is that the trimmed-equality layer, placed after
the numeric layer in the source, is never masked by it: `parseFloat`
ignores leading and trailing whitespace, so two strings with equal trims
that both parse as numbers parse to the *same* number and already satisfy
the 0.001 tolerance.  The lemmas below prove that `parseFloat` is invariant
under trailing whitespace. -/

/-- A whitespace character is none of the characters meaningful to the
`parseFloat` grammar. -/
theorem ws_not_special {c : Char} (h : isWsChar c = true) :
    c ≠ '+' ∧ c ≠ '-' ∧ c ≠ '.' ∧ c ≠ 'e' ∧ c ≠ 'E' ∧ c.isDigit = false := by
  unfold isWsChar at h
  simp only [Bool.or_eq_true, beq_iff_eq] at h
  rcases h with ((((h | h) | h) | h) | h) | h <;> subst h <;>
    exact ⟨by decide, by decide, by decide, by decide, by decide, by decide⟩

theorem mem_takeWhile_p {p : Char → Bool} :
    ∀ {l : List Char} {c : Char}, c ∈ l.takeWhile p → p c = true := by
  intro l
  induction l with
  | nil => intro c hc; simp [List.takeWhile] at hc
  | cons a t ih =>
    intro c hc
    by_cases hp : p a
    · rw [List.takeWhile_cons_of_pos hp] at hc
      rcases List.mem_cons.mp hc with h | h
      · rwa [h]
      · exact ih h
    · rw [List.takeWhile_cons_of_neg hp] at hc
      simp at hc

theorem takeWhile_append_not {p : Char → Bool} {w : List Char}
    (hw : ∀ c ∈ w, p c = false) :
    ∀ l : List Char, (l ++ w).takeWhile p = l.takeWhile p := by
  intro l
  induction l with
  | nil =>
    cases w with
    | nil => rfl
    | cons c t => simp [List.takeWhile_cons, hw c (by simp)]
  | cons a t ih =>
    simp only [List.cons_append, List.takeWhile_cons]
    split <;> simp [ih]

theorem dropWhile_append_not {p : Char → Bool} {w : List Char}
    (hw : ∀ c ∈ w, p c = false) :
    ∀ l : List Char, (l ++ w).dropWhile p = l.dropWhile p ++ w := by
  intro l
  induction l with
  | nil =>
    cases w with
    | nil => rfl
    | cons c t => simp [List.dropWhile_cons, hw c (by simp)]
  | cons a t ih =>
    simp only [List.cons_append, List.dropWhile_cons]
    split <;> simp [ih]

theorem parseSign_append {w : List Char} (hw : ∀ c ∈ w, isWsChar c = true) :
    ∀ l : List Char, parseSign (l ++ w) = ((parseSign l).1, (parseSign l).2 ++ w) := by
  intro l
  cases l with
  | nil =>
    cases w with
    | nil => rfl
    | cons c t =>
      have hs := ws_not_special (hw c (by simp))
      simp [parseSign, hs.1, hs.2.1]
  | cons a t =>
    simp only [List.cons_append, parseSign]
    split_ifs <;> rfl

theorem parseExpPart_append {w : List Char} (hw : ∀ c ∈ w, isWsChar c = true) :
    ∀ l : List Char, parseExpPart (l ++ w) = parseExpPart l := by
  have hwd : ∀ c ∈ w, c.isDigit = false := fun c hc => (ws_not_special (hw c hc)).2.2.2.2.2
  intro l
  cases l with
  | nil =>
    cases w with
    | nil => rfl
    | cons c t =>
      have hs := ws_not_special (hw c (by simp))
      simp [parseExpPart, hs.2.2.2.1, hs.2.2.2.2.1]
  | cons a t =>
    show parseExpPart (a :: (t ++ w)) = parseExpPart (a :: t)
    simp only [parseExpPart]
    rw [parseSign_append hw t]
    by_cases he : a = 'e' ∨ a = 'E'
    · simp [if_pos he, takeWhile_append_not hwd]
    · simp [if_neg he]

theorem mantAndRest_append {w : List Char} (hw : ∀ c ∈ w, isWsChar c = true) :
    ∀ l : List Char, mantAndRest (l ++ w) =
      (mantAndRest l).map (fun p => (p.1, p.2 ++ w)) := by
  have hwd : ∀ c ∈ w, c.isDigit = false := fun c hc => (ws_not_special (hw c hc)).2.2.2.2.2
  intro l
  unfold mantAndRest
  rw [takeWhile_append_not hwd l, dropWhile_append_not hwd l]
  rcases hd : l.dropWhile Char.isDigit with _ | ⟨c, t⟩
  · simp only [List.nil_append]
    cases hwc : w with
    | nil =>
      simp only []
      split_ifs <;> simp
    | cons d u =>
      have hs := ws_not_special (hw d (by rw [hwc]; exact List.mem_cons_self d u))
      simp only [if_neg hs.2.2.1]
      split_ifs <;> simp
  · simp only [List.cons_append]
    by_cases hdot : c = '.'
    · subst hdot
      simp only [if_pos rfl]
      rw [takeWhile_append_not hwd t, dropWhile_append_not hwd t]
      split_ifs <;> simp
    · simp only [if_neg hdot]
      split_ifs <;> simp

theorem parseNum_append {w : List Char} (hw : ∀ c ∈ w, isWsChar c = true)
    (l : List Char) : parseNum (l ++ w) = parseNum l := by
  unfold parseNum
  rw [parseSign_append hw l]
  simp only [mantAndRest_append hw]
  rcases hm : mantAndRest (parseSign l).2 with _ | ⟨m, rest⟩
  · rfl
  · simp [parseExpPart_append hw rest]

/-- `parseNum` ignores trailing whitespace. -/
theorem parseNum_dropTrailing (m : List Char) :
    parseNum m = parseNum ((m.reverse.dropWhile isWsChar).reverse) := by
  have hsplit : m = (m.reverse.dropWhile isWsChar).reverse ++
      (m.reverse.takeWhile isWsChar).reverse := by
    conv_lhs => rw [← List.reverse_reverse m,
      ← List.takeWhile_append_dropWhile (p := isWsChar) (l := m.reverse)]
    rw [List.reverse_append]
  have hw : ∀ c ∈ (m.reverse.takeWhile isWsChar).reverse, isWsChar c = true := by
    intro c hc
    exact mem_takeWhile_p (List.mem_reverse.mp hc)
  conv_lhs => rw [hsplit]
  exact parseNum_append hw _

/-- `parseFloat` only sees the trimmed string. -/
theorem jsParseFloat_eq_trim (s : String) :
    jsParseFloat s = parseNum (trimList s.data) := by
  unfold jsParseFloat trimList
  exact parseNum_dropTrailing (s.data.dropWhile isWsChar)

/-- Strings with equal trims parse to the same number (or both to NaN). -/
theorem jsParseFloat_congr_trim {a b : String} (h : jsTrim a = jsTrim b) :
    jsParseFloat a = jsParseFloat b := by
  rw [jsParseFloat_eq_trim, jsParseFloat_eq_trim]
  have hl : trimList a.data = trimList b.data := congrArg String.data h
  rw [hl]

/-- C4: `validateOutput` accepts exactly when some layer of the ordered
chain — exact equality, case-insensitive equality, numeric equality within
0.001 when both sides parse, trimmed equality — matches, and rejects
otherwise; in particular "42" matches "42.0" and "42" does not match
"43". -/
theorem C4_validateOutput_layers :
    (∀ a b : String, validateOutput a b = true ↔
      (a = b ∨ lowerStr a = lowerStr b ∨
       (∃ x y : ℚ, jsParseFloat a = some x ∧ jsParseFloat b = some y ∧ |x - y| < 1/1000) ∨
       jsTrim a = jsTrim b)) ∧
    validateOutput "42" "42.0" = true ∧ validateOutput "42" "43" = false := by
  refine ⟨?_, ?_, ?_⟩
  · intro a b
    unfold validateOutput
    split_ifs with h1 h2 h3
    · simp [h1]
    · simp [h2]
    · -- trimmed equality holds; all three match branches accept
      rcases hpa : jsParseFloat a with _ | x <;> rcases hpb : jsParseFloat b with _ | y
      · simp [h3]
      · simp [h3]
      · simp [h3]
      · have hpe := jsParseFloat_congr_trim h3
        rw [hpa, hpb] at hpe
        cases Option.some.inj hpe
        simp only [decide_eq_true_eq, sub_self, abs_zero]
        constructor
        · intro _
          exact Or.inr (Or.inr (Or.inr h3))
        · intro _
          norm_num
    · -- no trimmed equality: acceptance is exactly the numeric layer
      rcases hpa : jsParseFloat a with _ | x <;> rcases hpb : jsParseFloat b with _ | y
      · simp [h1, h2, h3]
      · simp [h1, h2, h3]
      · simp [h1, h2, h3]
      · simp only [h1, h2, h3, false_or, or_false, decide_eq_true_eq]
        constructor
        · intro hlt
          exact ⟨x, y, rfl, rfl, hlt⟩
        · rintro ⟨x1, y1, hx, hy, hlt⟩
          cases Option.some.inj hx
          cases Option.some.inj hy
          exact hlt
  · simp +decide [validateOutput, jsParseFloat, parseNum, mantAndRest, parseSign, parseExpPart,
      digitsVal, isWsChar, lowerStr, lowerChar, jsTrim, trimList]
  · simp +decide [validateOutput, jsParseFloat, parseNum, mantAndRest, parseSign, parseExpPart,
      digitsVal, isWsChar, lowerStr, lowerChar, jsTrim, trimList]
    norm_num



/-! ## C8 -/

/-- Filtering by a pointwise-stronger predicate yields at most as many
elements. -/
theorem filter_length_imp {α} (p q : α → Bool) (h : ∀ a, p a = true → q a = true) :
    ∀ l : List α, (l.filter p).length ≤ (l.filter q).length := by
  intro l
  induction l with
  | nil => simp
  | cons a t ih =>
    simp only [List.filter_cons]
    by_cases hp : p a = true
    · rw [if_pos hp, if_pos (h a hp)]
      simpa using ih
    · rw [if_neg hp]
      split
      · exact le_trans ih (by simp)
      · exact ih

/-- A filter's length splits along any second predicate. -/
theorem filter_length_split {α} (p q : α → Bool) :
    ∀ l : List α, (l.filter p).length =
      (l.filter fun a => p a && q a).length + (l.filter fun a => p a && !q a).length := by
  intro l
  induction l with
  | nil => simp
  | cons a t ih =>
    simp only [List.filter_cons]
    by_cases hp : p a = true <;> by_cases hq : q a = true <;>
      simp [hp, hq, ih] <;> omega

/-- A guarded fraction-of-count term is bounded by its weight. -/
theorem ratio_part_le (a b : ℕ) (k : ℚ) (hab : a ≤ b) (hk : 0 ≤ k) :
    (if 0 < b then ((a : ℚ) / (b : ℚ)) * k else 0) ≤ k := by
  split_ifs with h
  · have hratio : ((a : ℚ) / (b : ℚ)) ≤ 1 := by
      rw [div_le_one (by exact_mod_cast h)]
      exact_mod_cast hab
    calc ((a : ℚ) / (b : ℚ)) * k ≤ 1 * k := mul_le_mul_of_nonneg_right hratio hk
      _ = k := one_mul k
  · exact hk

/-- The integer-numerator variant of `ratio_part_le`. -/
theorem ratio_part_le_int (x : ℤ) (b : ℕ) (k : ℚ) (hab : x ≤ (b : ℤ)) (hk : 0 ≤ k) :
    (if 0 < b then ((x : ℚ) / (b : ℚ)) * k else 0) ≤ k := by
  split_ifs with h
  · have hratio : ((x : ℚ) / (b : ℚ)) ≤ 1 := by
      rw [div_le_one (by exact_mod_cast h)]
      exact_mod_cast hab
    calc ((x : ℚ) / (b : ℚ)) * k ≤ 1 * k := mul_le_mul_of_nonneg_right hratio hk
      _ = k := one_mul k
  · exact hk

/-- The functionality score is at most 80 (it can exceed its stated
`maxScore` of 70 by up to 10). -/
theorem gradeFunctionality_score_le (results : List TestResult) :
    (gradeFunctionality results).score ≤ 80 := by
  show jsRound _ ≤ 80
  apply jsRound_le_of_le
  have hpple : (results.filter fun r => r.passed && !isHiddenResult r).length ≤
      (results.filter fun r => !isHiddenResult r).length :=
    filter_length_imp _ _ (fun a ha => by
      simp only [Bool.and_eq_true] at ha
      exact ha.2) results
  have hsplit := filter_length_split (fun r : TestResult => r.passed)
    (fun r => isHiddenResult r) results
  have hpubsplit := filter_length_split (fun _ : TestResult => true)
    (fun r => isHiddenResult r) results
  simp only [Bool.true_and, List.filter_true] at hpubsplit
  have hphle : (results.filter fun r => r.passed && isHiddenResult r).length ≤
      (results.filter fun r => isHiddenResult r).length :=
    filter_length_imp _ _ (fun a ha => by
      simp only [Bool.and_eq_true] at ha
      exact ha.2) results
  have hnum : ((results.filter fun r => r.passed).length : ℤ) -
      ((results.filter fun r => r.passed && !isHiddenResult r).length : ℤ) ≤
      ((results.length - (results.filter fun r => !isHiddenResult r).length : ℕ) : ℤ) := by
    omega
  have h1 := ratio_part_le (results.filter fun r => r.passed && !isHiddenResult r).length
    (results.filter fun r => !isHiddenResult r).length 50 hpple (by norm_num)
  have h2 := ratio_part_le_int
    (((results.filter fun r => r.passed).length : ℤ) -
      ((results.filter fun r => r.passed && !isHiddenResult r).length : ℤ))
    (results.length - (results.filter fun r => !isHiddenResult r).length) 20 hnum (by norm_num)
  have h3 : (if results.all compiledResult then (10:ℚ) else 0) ≤ 10 := by
    split_ifs <;> norm_num
  push_cast
  push_cast at h1 h2 h3
  linarith

/-- The efficiency score is bounded by its `maxScore` of 20. -/
theorem gradeEfficiency_score_le (metrics : PerformanceMetrics) (facts : CodeFacts) :
    (gradeEfficiency metrics facts).score ≤ 20 := by
  show jsRound _ ≤ 20
  apply jsRound_le_of_le
  split_ifs <;> norm_num

/-- The readability metric is a rounded value of at most 100. -/
theorem readability_le (facts : CodeFacts) : (analyzeCodeQuality facts).readability ≤ 100 := by
  show jsRound _ ≤ 100
  apply jsRound_le_of_le
  exact_mod_cast min_le_left (100:ℚ) ((facts.semiLines : ℚ) / (facts.lines : ℚ) * 100)

/-- The style score is bounded by its `maxScore` of 10. -/
theorem gradeStyle_score_le (facts : CodeFacts) :
    (gradeStyle facts (analyzeCodeQuality facts)).score ≤ 10 := by
  show jsRound _ ≤ 10
  apply jsRound_le_of_le
  have hr := readability_le facts
  have hratio : ((analyzeCodeQuality facts).readability : ℚ) / 100 ≤ 1 := by
    rw [div_le_one (by norm_num)]
    exact_mod_cast hr
  have hfmt : (if facts.consistentFormatting then (3:ℚ) else 0) ≤ 3 := by
    split_ifs <;> norm_num
  have hreg : (if 3 < (analyzeCodeQuality facts).registerKinds then (3:ℚ) else 0) ≤ 3 := by
    split_ifs <;> norm_num
  nlinarith

/-- The robustness score is bounded by its `maxScore` of 10. -/
theorem gradeRobustness_score_le (results : List TestResult) (facts : CodeFacts) :
    (gradeRobustness results facts).score ≤ 10 := by
  show jsRound _ ≤ 10
  apply jsRound_le_of_le
  have hpe : (((results.filter fun r => isEdgeCase r).filter fun r => r.passed).length) ≤
      ((results.filter fun r => isEdgeCase r).length) := List.length_filter_le _ _
  have hE := ratio_part_le ((results.filter fun r => isEdgeCase r).filter fun r => r.passed).length
    (results.filter fun r => isEdgeCase r).length 4 hpe (by norm_num)
  have h1 : (if facts.hasCmp && (facts.hasJe || facts.hasJne || facts.hasJg || facts.hasJl)
      then (3:ℚ) else 0) ≤ 3 := by
    split_ifs <;> norm_num
  have h2 : (if facts.hasCmp && facts.hasJl then (3:ℚ) else 0) ≤ 3 := by
    split_ifs <;> norm_num
  linarith

/-- C8, amended.  For every graded submission (non-empty results, non-blank
code), the aggregate score equals the sum of the four sub-scores and the
total `maxScore` is 110; the efficiency, style and robustness sub-scores
are bounded by their own `maxScore`s (20, 10, 10), but the functionality
sub-score is only bounded by 80 and can exceed its stated `maxScore` of 70;
the reported percentage is score/maxScore×100 rounded to the nearest
integer, and the letter grade is taken from the unrounded percentage with
bands ≥90 A, ≥80 B, ≥70 C, ≥60 D, else F. -/
theorem C8_aggregate_score_structure (facts : CodeFacts) (results : List TestResult)
    (hne : results ≠ []) (hlines : 0 < facts.lines) :
    ((gradeSubmission facts results).score =
      (gradeSubmission facts results).functionality.score +
      (gradeSubmission facts results).efficiency.score +
      (gradeSubmission facts results).style.score +
      (gradeSubmission facts results).robustness.score) ∧
    (gradeSubmission facts results).maxScore = 110 ∧
    (gradeSubmission facts results).functionality.maxScore = 70 ∧
    (gradeSubmission facts results).efficiency.maxScore = 20 ∧
    (gradeSubmission facts results).style.maxScore = 10 ∧
    (gradeSubmission facts results).robustness.maxScore = 10 ∧
    (gradeSubmission facts results).efficiency.score ≤ 20 ∧
    (gradeSubmission facts results).style.score ≤ 10 ∧
    (gradeSubmission facts results).robustness.score ≤ 10 ∧
    (gradeSubmission facts results).functionality.score ≤ 80 ∧
    ((gradeSubmission facts results).percentage =
      jsRound (((gradeSubmission facts results).score : ℚ) /
        (((gradeSubmission facts results).maxScore : ℚ)) * 100)) ∧
    ((gradeSubmission facts results).letterGrade =
      calculateLetterGrade (((gradeSubmission facts results).score : ℚ) /
        (((gradeSubmission facts results).maxScore : ℚ)) * 100)) ∧
    (∀ p : ℚ, (calculateLetterGrade p = "A" ↔ 90 ≤ p) ∧
      (calculateLetterGrade p = "B" ↔ 80 ≤ p ∧ p < 90) ∧
      (calculateLetterGrade p = "C" ↔ 70 ≤ p ∧ p < 80) ∧
      (calculateLetterGrade p = "D" ↔ 60 ≤ p ∧ p < 70) ∧
      (calculateLetterGrade p = "F" ↔ p < 60)) := by
  have hscore : (gradeSubmission facts results).score =
      (gradeFunctionality results).score +
      (gradeEfficiency (calculatePerformanceMetrics results facts) facts).score +
      (gradeStyle facts (analyzeCodeQuality facts)).score +
      (gradeRobustness results facts).score := jsRound_intCast _
  refine ⟨hscore, rfl, rfl, rfl, rfl, rfl,
    gradeEfficiency_score_le _ _, gradeStyle_score_le _, gradeRobustness_score_le _ _,
    gradeFunctionality_score_le _, ?_, ?_, ?_⟩
  · show jsRound _ = jsRound _
    rw [hscore]
    rfl
  · show calculateLetterGrade _ = calculateLetterGrade _
    rw [hscore]
    rfl
  · intro p
    unfold calculateLetterGrade
    refine ⟨?_, ?_, ?_, ?_, ?_⟩ <;> split_ifs <;> simp_all <;>
      first | linarith | (constructor <;> linarith) | (intro h; linarith)

/-- C8, counterexample.  The claim says each sub-score is bounded by its
own `maxScore`.  With one public and one hidden case both passing and
everything compiled, the functionality sub-score is 50 + 20 + 10 = 80,
exceeding its `maxScore` of 70. -/
theorem C8_functionality_exceeds_max_cex :
    (gradeSubmission cexFacts cex8Results).functionality.maxScore = 70 ∧
    (gradeSubmission cexFacts cex8Results).functionality.score = 80 ∧
    ¬((gradeSubmission cexFacts cex8Results).functionality.score ≤
      (gradeSubmission cexFacts cex8Results).functionality.maxScore) := by
  have h80 : (gradeSubmission cexFacts cex8Results).functionality.score = 80 := by
    show (gradeFunctionality cex8Results).score = 80
    simp +decide [gradeFunctionality, cex8Results, isHiddenResult, jsIncludes, hasSubL,
      startsWithL, compiledResult, jsStrTruthy]
    apply jsRound_eq_intCast
    push_cast
    norm_num
  refine ⟨rfl, h80, ?_⟩
  rw [h80]
  decide

/-- Witness for C8's amended theorem at the concrete graded submission of
the C7 counterexample. -/
theorem C8_aggregate_score_structure_witness :
    (gradeSubmission cexFacts cexResults).maxScore = 110 ∧
    ((gradeSubmission cexFacts cexResults).score =
      (gradeSubmission cexFacts cexResults).functionality.score +
      (gradeSubmission cexFacts cexResults).efficiency.score +
      (gradeSubmission cexFacts cexResults).style.score +
      (gradeSubmission cexFacts cexResults).robustness.score) :=
  ⟨(C8_aggregate_score_structure cexFacts cexResults (by simp [cexResults]) (by decide)).2.1,
   (C8_aggregate_score_structure cexFacts cexResults (by simp [cexResults]) (by decide)).1⟩

/-! ## C5: grade monotonicity in the passed flags -/

/-- Filter counts are monotone along `FlagLe` for predicates preserved by
it. -/
theorem forall2_filter_le {l₁ l₂ : List TestResult} (p : TestResult → Bool)
    (hp : ∀ a b, FlagLe a b → p a = true → p b = true)
    (h : List.Forall₂ FlagLe l₁ l₂) :
    (l₁.filter p).length ≤ (l₂.filter p).length := by
  induction h with
  | nil => simp
  | @cons a b t₁ t₂ hab htl ih =>
    simp only [List.filter_cons]
    by_cases hpa : p a = true
    · rw [if_pos hpa, if_pos (hp _ _ hab hpa)]
      simpa using ih
    · rw [if_neg hpa]
      split
      · exact le_trans ih (by simp)
      · exact ih

/-- Filter counts are invariant along `FlagLe` for predicates it fixes. -/
theorem forall2_filter_eq {l₁ l₂ : List TestResult} (p : TestResult → Bool)
    (hp : ∀ a b, FlagLe a b → p a = p b)
    (h : List.Forall₂ FlagLe l₁ l₂) :
    (l₁.filter p).length = (l₂.filter p).length := by
  induction h with
  | nil => simp
  | @cons a b t₁ t₂ hab htl ih =>
    simp only [List.filter_cons]
    rw [hp _ _ hab]
    split <;> simp [ih]

/-- `all` is invariant along `FlagLe` for predicates it fixes. -/
theorem forall2_all_eq {l₁ l₂ : List TestResult} (p : TestResult → Bool)
    (hp : ∀ a b, FlagLe a b → p a = p b)
    (h : List.Forall₂ FlagLe l₁ l₂) :
    l₁.all p = l₂.all p := by
  induction h with
  | nil => rfl
  | @cons a b t₁ t₂ hab htl ih =>
    simp only [List.all_cons]
    rw [hp _ _ hab, ih]

/-- Execution-time lists agree along `FlagLe`. -/
theorem forall2_exec_map {l₁ l₂ : List TestResult}
    (h : List.Forall₂ FlagLe l₁ l₂) :
    l₁.map (fun r => r.executionTime) = l₂.map (fun r => r.executionTime) := by
  induction h with
  | nil => rfl
  | @cons a b t₁ t₂ hab htl ih =>
    simp only [List.map_cons]
    rw [hab.2.2.2.1, ih]

/-- `isHiddenResult` is fixed by `FlagLe`. -/
theorem isHidden_flagLe {a b : TestResult} (hab : FlagLe a b) :
    isHiddenResult a = isHiddenResult b := by
  unfold isHiddenResult
  rw [hab.1]

/-- `compiledResult` is fixed by `FlagLe`. -/
theorem compiled_flagLe {a b : TestResult} (hab : FlagLe a b) :
    compiledResult a = compiledResult b := by
  unfold compiledResult
  rw [hab.2.2.2.2.1]

/-- `isEdgeCase` is fixed by `FlagLe`. -/
theorem isEdge_flagLe {a b : TestResult} (hab : FlagLe a b) :
    isEdgeCase a = isEdgeCase b := by
  unfold isEdgeCase
  rw [hab.1, hab.2.2.1]

/-- `gradeFunctionality`'s score in terms of `funScoreQ`. -/
theorem gradeFunctionality_score_eq (l : List TestResult) :
    (gradeFunctionality l).score = jsRound (funScoreQ
      (l.filter fun r => r.passed).length
      l.length
      (l.filter fun r => !isHiddenResult r).length
      (l.filter fun r => r.passed && !isHiddenResult r).length
      (l.all compiledResult)) := rfl

/-- `funScoreQ` is monotone in the pass counts (with the public/hidden
pass counts rising consistently). -/
theorem funScoreQ_mono {pt₁ pp₁ pt₂ pp₂ : ℕ} (n pub : ℕ) (allc : Bool)
    (h1 : pp₁ ≤ pp₂)
    (h2 : (pt₁ : ℤ) - (pp₁ : ℤ) ≤ (pt₂ : ℤ) - (pp₂ : ℤ)) :
    funScoreQ pt₁ n pub pp₁ allc ≤ funScoreQ pt₂ n pub pp₂ allc := by
  unfold funScoreQ
  have hA : (if 0 < pub then ((pp₁ : ℚ) / (pub : ℚ)) * 50 else 0) ≤
      (if 0 < pub then ((pp₂ : ℚ) / (pub : ℚ)) * 50 else 0) := by
    split_ifs with h
    · gcongr
    · exact le_refl 0
  have hB : (if 0 < n - pub then ((((pt₁ : ℤ) - (pp₁ : ℤ) : ℤ) : ℚ) / ((n - pub : ℕ) : ℚ)) * 20
        else 0) ≤
      (if 0 < n - pub then ((((pt₂ : ℤ) - (pp₂ : ℤ) : ℤ) : ℚ) / ((n - pub : ℕ) : ℚ)) * 20
        else 0) := by
    split_ifs with h
    · gcongr
    · exact le_refl 0
  exact add_le_add (add_le_add hA hB) (le_refl _)

/-- `gradeRobustness`'s score in terms of `robScoreQ`. -/
theorem gradeRobustness_score_eq (l : List TestResult) (facts : CodeFacts) :
    (gradeRobustness l facts).score = jsRound (robScoreQ facts
      ((l.filter fun r => isEdgeCase r).filter fun r => r.passed).length
      (l.filter fun r => isEdgeCase r).length) := rfl

/-- `robScoreQ` is monotone in the passed-edge-case count. -/
theorem robScoreQ_mono (facts : CodeFacts) {pe₁ pe₂ : ℕ} (te : ℕ)
    (h1 : pe₁ ≤ pe₂) :
    robScoreQ facts pe₁ te ≤ robScoreQ facts pe₂ te := by
  unfold robScoreQ
  have hE : (if 0 < te then ((pe₁ : ℚ) / (te : ℚ)) * 4 else 0) ≤
      (if 0 < te then ((pe₂ : ℚ) / (te : ℚ)) * 4 else 0) := by
    split_ifs with h
    · gcongr
    · exact le_refl 0
  exact add_le_add (add_le_add (le_refl _) hE) (le_refl _)

/-- C5: holding the code facts and every non-`passed` field of the result
list fixed, flipping any subset of `passed` flags from `false` to `true`
never decreases the total score returned by `gradeSubmission`. -/
theorem C5_grade_monotone (facts : CodeFacts) (l₁ l₂ : List TestResult)
    (h : List.Forall₂ FlagLe l₁ l₂) :
    (gradeSubmission facts l₁).score ≤ (gradeSubmission facts l₂).score := by
  -- the efficiency and style components are identical on both sides
  have hmetrics : calculatePerformanceMetrics l₁ facts = calculatePerformanceMetrics l₂ facts := by
    unfold calculatePerformanceMetrics
    rw [forall2_exec_map h, h.length_eq]
  -- functionality is monotone
  have hpub := forall2_filter_eq (fun r => !isHiddenResult r)
    (fun a b hab => by
      show (!isHiddenResult a) = !isHiddenResult b
      rw [isHidden_flagLe hab]) h
  have hpp := forall2_filter_le (fun r => r.passed && !isHiddenResult r)
    (fun a b hab hpa => by
      simp only [Bool.and_eq_true] at hpa ⊢
      exact ⟨hab.2.2.2.2.2 hpa.1, by rw [← isHidden_flagLe hab]; exact hpa.2⟩) h
  have hsplit₁ := filter_length_split (fun r : TestResult => r.passed)
    (fun r => isHiddenResult r) l₁
  have hsplit₂ := filter_length_split (fun r : TestResult => r.passed)
    (fun r => isHiddenResult r) l₂
  have hphc := forall2_filter_le (fun r => r.passed && isHiddenResult r)
    (fun a b hab hpa => by
      simp only [Bool.and_eq_true] at hpa ⊢
      exact ⟨hab.2.2.2.2.2 hpa.1, by rw [← isHidden_flagLe hab]; exact hpa.2⟩) h
  have hall := forall2_all_eq compiledResult (fun a b hab => compiled_flagLe hab) h
  have hfun : (gradeFunctionality l₁).score ≤ (gradeFunctionality l₂).score := by
    rw [gradeFunctionality_score_eq, gradeFunctionality_score_eq, h.length_eq, hpub, hall]
    apply jsRound_mono
    apply funScoreQ_mono _ _ _ hpp
    omega
  -- robustness is monotone
  have hte := forall2_filter_eq (fun r => isEdgeCase r)
    (fun a b hab => isEdge_flagLe hab) h
  have hpe : ((l₁.filter fun r => isEdgeCase r).filter fun r => r.passed).length ≤
      ((l₂.filter fun r => isEdgeCase r).filter fun r => r.passed).length := by
    rw [List.filter_filter, List.filter_filter]
    exact forall2_filter_le _
      (fun a b hab hpa => by
        simp only [Bool.and_eq_true] at hpa ⊢
        exact ⟨hab.2.2.2.2.2 hpa.1, by rw [← isEdge_flagLe hab]; exact hpa.2⟩) h
  have hrob : (gradeRobustness l₁ facts).score ≤ (gradeRobustness l₂ facts).score := by
    rw [gradeRobustness_score_eq, gradeRobustness_score_eq, hte]
    apply jsRound_mono
    exact robScoreQ_mono facts _ hpe
  -- assemble
  have hs₁ : (gradeSubmission facts l₁).score =
      (gradeFunctionality l₁).score +
      (gradeEfficiency (calculatePerformanceMetrics l₁ facts) facts).score +
      (gradeStyle facts (analyzeCodeQuality facts)).score +
      (gradeRobustness l₁ facts).score := jsRound_intCast _
  have hs₂ : (gradeSubmission facts l₂).score =
      (gradeFunctionality l₂).score +
      (gradeEfficiency (calculatePerformanceMetrics l₂ facts) facts).score +
      (gradeStyle facts (analyzeCodeQuality facts)).score +
      (gradeRobustness l₂ facts).score := jsRound_intCast _
  rw [hs₁, hs₂, hmetrics]
  omega

/-- Witness for C5 at a one-test suite whose only flag is flipped. -/
theorem C5_grade_monotone_witness :
    (gradeSubmission cexFacts c5Fail).score ≤ (gradeSubmission cexFacts c5Pass).score :=
  C5_grade_monotone cexFacts c5Fail c5Pass
    (List.Forall₂.cons ⟨rfl, rfl, rfl, rfl, rfl, fun _ => rfl⟩ List.Forall₂.nil)
